import Mathlib

/- Shallow embedding of the citation-record reconciliation pipeline of
   scripts/collect_citations.py and scripts/openalex_citations.py.

   Strings are modelled over Lean characters; the character classes of
   Python's regular expressions are modelled on their ASCII fragment
   (plus the explicitly handled non-breaking space), which is the
   fragment the pipeline's normalization claims quantify over.
   Network calls (requests / Crossref) are modelled as explicit oracle
   parameters; the difflib SequenceMatcher ratio is modelled as an
   explicit scoring-function parameter returning an exact rational. -/

/- Python regex \s for the characters the scripts manipulate:
   space, tab, newline, carriage return, vertical tab, form feed,
   and the non-breaking space that normalize_whitespace replaces. -/
def isSpaceChar (c : Char) : Bool :=
  c = ' ' || c = '\t' || c = '\n' || c = '\r' || c = '\x0b' || c = '\x0c' || c = '\u00A0'

/- Python regex \w on its ASCII fragment: alphanumerics and underscore. -/
def isWordChar (c : Char) : Bool :=
  c.isAlphanum || c = '_'

/- re.sub(r"\s+", " ", ...) after every whitespace character has been
   mapped to a plain space: collapse each run of spaces to one space. -/
def squashSpaces : List Char → List Char
  | [] => []
  | [c] => [c]
  | a :: b :: rest =>
    if a = ' ' && b = ' ' then squashSpaces (b :: rest)
    else a :: squashSpaces (b :: rest)

/- str.strip() on a list whose only remaining whitespace is ' '. -/
def stripSpaces (cs : List Char) : List Char :=
  ((cs.dropWhile (fun c => c = ' ')).reverse.dropWhile (fun c => c = ' ')).reverse

def normalizeWSList (cs : List Char) : List Char :=
  stripSpaces (squashSpaces (cs.map (fun c => if isSpaceChar c then ' ' else c)))

/- collect_citations.normalize_whitespace / openalex_citations.normalize_whitespace:
   replace the non-breaking space, collapse whitespace runs, strip the ends. -/
def normalize_whitespace (s : String) : String :=
  String.mk (normalizeWSList s.toList)

/- collect_citations.normalize_author_name / openalex_citations.normalize_author_name:
   lowercase, delete every character matching [^\w\s], collapse whitespace. -/
def normalize_author_name (name : String) : String :=
  String.mk (normalizeWSList
    ((name.toList.map Char.toLower).filter (fun c => isWordChar c || isSpaceChar c)))

/- collect_citations.normalize_title: lowercase, replace every character
   matching [^\w\s] by a space, collapse whitespace. -/
def normalize_title (title : String) : String :=
  String.mk (normalizeWSList
    ((title.toList.map Char.toLower).map
      (fun c => if isWordChar c || isSpaceChar c then c else ' ')))

/- ORIGINAL_AUTHORS in collect_citations.py. -/
def ORIGINAL_AUTHORS : List String :=
  ["peter c ma", "pc ma", "p c ma", "yu lv", "y lv", "matthias ihme", "m ihme"]

/- ORIGINAL_AUTHORS in openalex_citations.py (adds "peter ma"). -/
def ORIGINAL_AUTHORS_OPENALEX : List String :=
  ["peter c ma", "pc ma", "p c ma", "peter ma", "yu lv", "y lv", "matthias ihme", "m ihme"]

/- Data model: dataclass ScholarRecord of collect_citations.py. -/
structure ScholarRecord where
  title : String
  url : Option String
  authors_raw : String
  snippet : String
  raw_meta : String
  year : Option Int
  cluster_id : Option String
  page_index : Nat
  authors_list : List String
  authors_truncated : Bool
deriving DecidableEq, Repr

/- collect_citations.record_key (also redefined identically inside main):
   Python truthiness makes an absent or empty cluster id fall back to the
   normalized title. -/
def record_key (record : ScholarRecord) : String :=
  match record.cluster_id with
  | some cid => if cid = "" then "title:" ++ normalize_title record.title else "cluster:" ++ cid
  | none => "title:" ++ normalize_title record.title

/- The dedup loop of collect_citations.main over the concatenated
   per-scope results (each year in order, then the fallback scope):
   skip a record whose key was already seen, else keep it and mark the key. -/
def dedupeAux : List ScholarRecord → List String → List ScholarRecord
  | [], _ => []
  | r :: rest, seen =>
    if record_key r ∈ seen then dedupeAux rest seen
    else r :: dedupeAux rest (record_key r :: seen)

def dedupeRecords (records : List ScholarRecord) : List ScholarRecord :=
  dedupeAux records []

/- main combines the per-scope fetch results in scope order and dedupes. -/
def combineRecords (scopes : List (List ScholarRecord)) : List ScholarRecord :=
  dedupeRecords scopes.flatten

/- One author object of a Crossref work item: the "given", "family" and
   "name" string fields (absent modelled as ""), and the list of
   affiliation "name" fields (an affiliation without a name yields ""). -/
structure CrossrefAuthor where
  given : String
  family : String
  name : String
  affiliation : List String
deriving DecidableEq, Repr

/- One Crossref work item, restricted to the fields the script reads:
   "title" (list), "author" (list), "DOI", "container-title" (list) and
   "issued"."date-parts" (a JSON null inside date-parts is none). -/
structure CrossrefItem where
  title : List String
  author : List CrossrefAuthor
  doi : Option String
  containerTitle : List String
  issued : List (List (Option Int))
deriving DecidableEq, Repr

/- A value of the crossref_cache.json mapping: the dicts written by
   query_crossref, one constructor per "status". -/
inductive CacheEntry where
  | error (msg : String)
  | noMatch (score : ℚ)
  | ok (score : ℚ) (doi : Option String) (journal : Option String) (year : Option Int)
      (first_author : Option String) (first_affiliations : List String)
      (authors : List String) (authors_affiliations : List (List String))
deriving DecidableEq, Repr

/- The cache dict, modelled as a partial map from normalized titles. -/
def CacheMap : Type := String → Option CacheEntry

def cacheFind (cache : CacheMap) (key : String) : Option CacheEntry :=
  cache key

def cacheInsert (cache : CacheMap) (key : String) (entry : CacheEntry) : CacheMap :=
  fun k => if k = key then some entry else cache k

/- info.get("status", "unknown"): every written entry carries a status. -/
def CacheEntry.statusStr : CacheEntry → String
  | .error _ => "error"
  | .noMatch _ => "no_match"
  | .ok .. => "ok"

/- info.get("score"). -/
def CacheEntry.score? : CacheEntry → Option ℚ
  | .error _ => none
  | .noMatch s => some s
  | .ok s .. => some s

/- info.get("doi"). -/
def CacheEntry.doi? : CacheEntry → Option String
  | .ok _ d _ _ _ _ _ _ => d
  | _ => none

/- info.get("journal"). -/
def CacheEntry.journal? : CacheEntry → Option String
  | .ok _ _ j _ _ _ _ _ => j
  | _ => none

/- info.get("year"). -/
def CacheEntry.year? : CacheEntry → Option Int
  | .ok _ _ _ y _ _ _ _ => y
  | _ => none

/- info.get("authors") or []. -/
def CacheEntry.authorsL : CacheEntry → List String
  | .ok _ _ _ _ _ _ a _ => a
  | _ => []

/- info.get("authors_affiliations") before the `or` default. -/
def CacheEntry.authorsAffsL : CacheEntry → List (List String)
  | .ok _ _ _ _ _ _ _ affs => affs
  | _ => []

/- The per-author extraction inside query_crossref's success branch:
   prefer " ".join of the non-empty given/family parts, else the literal
   name, else the sentinel for missing information. -/
def crossrefAuthorName (a : CrossrefAuthor) : String :=
  let parts := [a.given, a.family].filter (fun p => p ≠ "")
  let nm := if parts ≠ [] then normalize_whitespace (String.intercalate " " parts)
            else normalize_whitespace a.name
  if nm = "" then "信息缺失" else nm

def crossrefAuthorAffs (a : CrossrefAuthor) : List String :=
  (a.affiliation.filter (fun s => s ≠ "")).map normalize_whitespace

/- issued[0][0] if issued and issued[0] else None. -/
def issuedYear : List (List (Option Int)) → Option Int
  | (y :: _) :: _ => y
  | _ => none

/- The "ok" cache entry built from the selected best item. -/
def okEntry (item : CrossrefItem) (score : ℚ) : CacheEntry :=
  CacheEntry.ok score item.doi item.containerTitle.head? (issuedYear item.issued)
    (match item.author with
     | [] => none
     | a :: _ => if crossrefAuthorName a = "信息缺失" then none else some (crossrefAuthorName a))
    (match item.author with
     | [] => []
     | a :: _ => crossrefAuthorAffs a)
    (item.author.map crossrefAuthorName)
    (item.author.map crossrefAuthorAffs)

/- The best-candidate loop of query_crossref: skip items without a title,
   score the first title of each item against the normalized query title,
   keep the item whose score strictly exceeds the running best (which
   starts at 0.0 with no item). -/
def bestStep (scorer : String → String → ℚ) (norm : String)
    (acc : Option CrossrefItem × ℚ) (item : CrossrefItem) : Option CrossrefItem × ℚ :=
  match item.title with
  | [] => acc
  | t :: _ =>
    if acc.2 < scorer (normalize_title t) norm then (some item, scorer (normalize_title t) norm)
    else acc

/- The scores considered by the loop, in item order. -/
def scoresOf (scorer : String → String → ℚ) (norm : String)
    (items : List CrossrefItem) : List ℚ :=
  items.filterMap (fun item =>
    match item.title with
    | [] => none
    | t :: _ => some (scorer (normalize_title t) norm))

/- collect_citations.query_crossref. The network response for the raw
   title is an explicit parameter (Except carries str(exc) on failure);
   `scorer` stands for sequence_score, difflib's SequenceMatcher ratio.
   Returns the info dict, the updated cache, and whether a live query
   was issued. -/
def queryCrossref (scorer : String → String → ℚ) (title : String)
    (response : Except String (List CrossrefItem)) (cache : CacheMap) :
    CacheEntry × CacheMap × Bool :=
  let norm := normalize_title title
  match cacheFind cache norm with
  | some entry => (entry, cache, false)
  | none =>
    match response with
    | .error exc => (CacheEntry.error exc, cacheInsert cache norm (CacheEntry.error exc), true)
    | .ok items =>
      let best := items.foldl (bestStep scorer norm) (none, 0)
      match best.1 with
      | none => (CacheEntry.noMatch best.2, cacheInsert cache norm (CacheEntry.noMatch best.2), true)
      | some item =>
        if best.2 < 3/5 then
          (CacheEntry.noMatch best.2, cacheInsert cache norm (CacheEntry.noMatch best.2), true)
        else
          (okEntry item best.2, cacheInsert cache norm (okEntry item best.2), true)

/- Data model: dataclass EnrichedRecord of collect_citations.py. -/
structure EnrichedRecord extends ScholarRecord where
  first_author : Option String := none
  first_author_affiliations : List String := []
  doi : Option String := none
  crossref_year : Option Int := none
  journal : Option String := none
  crossref_score : Option ℚ := none
  crossref_status : String := "unqueried"
  authors_crossref : List String := []
  authors_crossref_affiliations : List (List String) := []
  final_authors : List String := []
  final_author_affiliations : List (List String) := []
  author_source : String := "unknown"
deriving DecidableEq, Repr

/- The affiliation handling of enrich_records: default a falsy
   affiliation list to one empty list per author, then defensively
   truncate and pad with empty lists when the lengths disagree. -/
def alignAffiliations (affs : List (List String)) (authors : List String) :
    List (List String) :=
  let affs0 := if affs = [] then authors.map (fun _ => ([] : List String)) else affs
  if affs0 ≠ [] ∧ affs0.length ≠ authors.length then
    affs0.take authors.length ++ List.replicate (authors.length - affs0.length) ([] : List String)
  else affs0

/- The final-author merge of enrich_records: Crossref authors when
   non-empty, else the scraped author list, else nothing. -/
def mergeFinalAuthors (ca : List String) (caff : List (List String))
    (record : ScholarRecord) : List String × List (List String) × String :=
  if ca ≠ [] then (ca, caff, "crossref")
  else if record.authors_list ≠ [] then
    (record.authors_list, record.authors_list.map (fun _ => ([] : List String)),
     if record.authors_truncated then "scholar_truncated" else "scholar")
  else ([], [], "unknown")

/- The body of the per-record loop of enrich_records. -/
def enrichOne (scorer : String → String → ℚ)
    (responses : String → Except String (List CrossrefItem))
    (cache : CacheMap) (record : ScholarRecord) :
    EnrichedRecord × CacheMap × Bool :=
  let q := queryCrossref scorer record.title (responses record.title) cache
  let info := q.1
  let ca := info.authorsL
  let caff := alignAffiliations info.authorsAffsL ca
  let m := mergeFinalAuthors ca caff record
  ({ toScholarRecord := record
     crossref_status := info.statusStr
     crossref_score := info.score?
     doi := info.doi?
     journal := info.journal?
     crossref_year := match info.year? with
                      | some y => some y
                      | none => record.year
     authors_crossref := ca
     authors_crossref_affiliations := caff
     final_authors := m.1
     final_author_affiliations := m.2.1
     author_source := m.2.2
     first_author := m.1.head?
     first_author_affiliations := match m.1, m.2.1 with
                                  | _ :: _, x :: _ => x
                                  | _, _ => [] },
   q.2.1, q.2.2)

/- collect_citations.enrich_records with the loaded cache passed in
   explicitly; returns the enriched records in order, the final cache
   state, and the number of live Crossref queries issued. -/
def enrichRecords (scorer : String → String → ℚ)
    (responses : String → Except String (List CrossrefItem)) :
    List ScholarRecord → CacheMap → List EnrichedRecord × CacheMap × Nat
  | [], cache => ([], cache, 0)
  | r :: rest, cache =>
    let one := enrichOne scorer responses cache r
    let next := enrichRecords scorer responses rest one.2.1
    (one.1 :: next.1, next.2.1, (if one.2.2 then 1 else 0) + next.2.2)

/- The author names consulted by filter_self_citations:
   record.final_authors or record.authors_list. -/
def consultedAuthors (record : EnrichedRecord) : List String :=
  if record.final_authors = [] then record.authors_list else record.final_authors

/- The keep condition of filter_self_citations: the set of normalized
   truthy author names must not intersect ORIGINAL_AUTHORS. -/
def selfCitationKeep (record : EnrichedRecord) : Bool :=
  !((consultedAuthors record).any
      (fun a => a ≠ "" && decide (normalize_author_name a ∈ ORIGINAL_AUTHORS)))

/- collect_citations.filter_self_citations. -/
def filterSelfCitations (records : List EnrichedRecord) : List EnrichedRecord :=
  records.filter selfCitationKeep

/- openalex_citations.should_exclude_self_citation. -/
def shouldExcludeSelfCitation (authors : List String) : Bool :=
  authors.any
    (fun a => a ≠ "" && decide (normalize_author_name a ∈ ORIGINAL_AUTHORS_OPENALEX))

/- A minimal JSON value, enough to express what json.loads can return. -/
inductive JsonValue where
  | null
  | bool (b : Bool)
  | num (q : ℚ)
  | str (s : String)
  | arr (items : List JsonValue)
  | dict (entries : List (String × JsonValue))

/- The observable state of a persisted file: absent, present but not
   valid JSON, or parsed to a value. -/
inductive FileRead (α : Type) where
  | missing
  | unparsable
  | parsed (v : α)

/- collect_citations.load_crossref_cache: missing file, JSONDecodeError,
   or a parsed non-dict all yield the empty mapping. -/
def loadCrossrefCache : FileRead JsonValue → List (String × JsonValue)
  | .missing => []
  | .unparsable => []
  | .parsed (.dict entries) => entries
  | .parsed _ => []

/- collect_citations.load_cached_records on a parsed JSON array: a
   missing file or JSONDecodeError yields no records; a malformed
   element (TypeError in ScholarRecord(**item)) is skipped. -/
def loadCachedRecords : FileRead (List (Option ScholarRecord)) → List ScholarRecord
  | .missing => []
  | .unparsable => []
  | .parsed items => items.filterMap id

/- openalex_citations.load_json: a missing or corrupt file yields None,
   which the caller treats as the empty record set. -/
def loadJson : FileRead JsonValue → Option JsonValue
  | .missing => none
  | .unparsable => none
  | .parsed v => some v

/- Concrete fixtures used to instantiate the theorems below. -/

def boundaryScorer : String → String → ℚ := fun _ _ => 3/5

def lowScorer : String → String → ℚ := fun _ _ => 1/2

def sampleItem : CrossrefItem :=
  { title := ["Test Paper"]
    author := [{ given := "John", family := "Smith", name := ""
                 affiliation := ["Stanford University"] }]
    doi := some "10.1000/x"
    containerTitle := ["J. Comput. Phys."]
    issued := [[some 2020]] }

def emptyCache : CacheMap := fun _ => none

def sampleRecordA : ScholarRecord :=
  { title := "Test Paper"
    url := none
    authors_raw := "J Smith, K Lee - Journal, 2020"
    snippet := ""
    raw_meta := "J Smith, K Lee - Journal, 2020"
    year := some 2020
    cluster_id := some "c123"
    page_index := 0
    authors_list := ["J Smith", "K Lee"]
    authors_truncated := false }

def sampleRecordB : ScholarRecord :=
  { sampleRecordA with title := "Test Paper (reprint)", page_index := 1 }

def errResponses : String → Except String (List CrossrefItem) := fun _ => .error "boom"

def okResponses : String → Except String (List CrossrefItem) := fun _ => .ok [sampleItem]

def cachedErrorMap : CacheMap :=
  fun k => if k = "test paper" then some (CacheEntry.error "cached failure") else none

def cachedNoMatchMap : CacheMap :=
  fun k => if k = "hello world" then some (CacheEntry.noMatch (1/2)) else none

def keptEnriched : EnrichedRecord :=
  { toScholarRecord := sampleRecordA
    final_authors := ["John Smith"]
    author_source := "crossref" }

def excludedEnriched : EnrichedRecord :=
  { toScholarRecord := sampleRecordB
    final_authors := ["Matthias Ihme", "Other Person"]
    author_source := "crossref" }

/- Helper lemmas ----------------------------------------------------------- -/

lemma cacheFind_cacheInsert_self (cache : CacheMap) (k : String) (e : CacheEntry) :
    cacheFind (cacheInsert cache k e) k = some e := by
  simp [cacheFind, cacheInsert]

lemma queryCrossref_cache_hit (scorer : String → String → ℚ) (title : String)
    (response : Except String (List CrossrefItem)) (cache : CacheMap) (entry : CacheEntry)
    (h : cacheFind cache (normalize_title title) = some entry) :
    queryCrossref scorer title response cache = (entry, cache, false) := by
  simp only [queryCrossref]
  rw [h]

lemma queryCrossref_error_eq (scorer : String → String → ℚ) (title : String)
    (msg : String) (cache : CacheMap)
    (hmiss : cacheFind cache (normalize_title title) = none) :
    queryCrossref scorer title (.error msg) cache
      = (CacheEntry.error msg,
         cacheInsert cache (normalize_title title) (CacheEntry.error msg), true) := by
  simp only [queryCrossref]
  rw [hmiss]

lemma dedupeAux_filter (k : String) (rs : List ScholarRecord) : ∀ seen : List String,
    (dedupeAux rs seen).filter (fun r => record_key r = k)
      = if k ∈ seen then [] else (rs.filter (fun r => record_key r = k)).take 1 := by
  induction rs with
  | nil => intro seen; simp [dedupeAux]
  | cons r rest ih =>
    intro seen
    rw [dedupeAux]
    by_cases hr : record_key r ∈ seen
    · rw [if_pos hr, ih seen]
      by_cases hk : k ∈ seen
      · simp [hk]
      · have hne : ¬ (record_key r = k) := fun he => hk (he ▸ hr)
        simp [hk, List.filter_cons, hne]
    · rw [if_neg hr]
      by_cases hrk : record_key r = k
      · subst hrk
        have h1 : (dedupeAux rest (record_key r :: seen)).filter
            (fun x => record_key x = record_key r) = [] := by
          rw [ih (record_key r :: seen), if_pos (List.mem_cons_self _ _)]
        simp [List.filter_cons, h1, hr]
      · have hkr : ¬ (k = record_key r) := fun h => hrk h.symm
        simp [List.filter_cons, hrk, hkr, ih (record_key r :: seen), List.mem_cons]

lemma dedupeAux_nodup (rs : List ScholarRecord) : ∀ seen : List String,
    (∀ r ∈ dedupeAux rs seen, record_key r ∉ seen)
    ∧ ((dedupeAux rs seen).map record_key).Nodup := by
  induction rs with
  | nil => intro seen; simp [dedupeAux]
  | cons r rest ih =>
    intro seen
    by_cases hr : record_key r ∈ seen
    · rw [dedupeAux, if_pos hr]; exact ih seen
    · rw [dedupeAux, if_neg hr]
      refine ⟨?_, ?_⟩
      · intro r' hr'
        rcases List.mem_cons.mp hr' with h | h
        · exact h ▸ hr
        · intro hmem
          exact (ih (record_key r :: seen)).1 r' h (List.mem_cons_of_mem _ hmem)
      · simp only [List.map_cons, List.nodup_cons]
        refine ⟨?_, (ih (record_key r :: seen)).2⟩
        intro hmem
        rcases List.mem_map.mp hmem with ⟨r', hr', hkey⟩
        exact (ih (record_key r :: seen)).1 r' hr'
          (by rw [hkey]; exact List.mem_cons_self _ _)

/- Claim theorems ---------------------------------------------------------- -/

/-- C8: loading a persisted store (the crossref enrichment cache, the raw
scholar-record store, or the openalex raw JSON) from a missing file or a
file whose contents fail to parse yields an empty mapping (respectively an
empty record list; openalex's loader signals the same empty outcome with
None), and as a total Lean function it never raises to the caller. -/
theorem c8_load_missing_or_corrupt_defaults_empty :
    loadCrossrefCache .missing = [] ∧ loadCrossrefCache .unparsable = []
    ∧ loadCachedRecords .missing = [] ∧ loadCachedRecords .unparsable = []
    ∧ loadJson .missing = none ∧ loadJson .unparsable = none :=
  ⟨rfl, rfl, rfl, rfl, rfl, rfl⟩

/-- C10: a cached entry is returned without issuing any external query and
without modifying the cache, regardless of its status (including "error"
and "no_match" entries), as long as its normalized-title key is in the
cache. -/
theorem c10_cached_entry_never_requeried (scorer : String → String → ℚ) (title : String)
    (response : Except String (List CrossrefItem)) (cache : CacheMap) (entry : CacheEntry)
    (h : cacheFind cache (normalize_title title) = some entry) :
    queryCrossref scorer title response cache = (entry, cache, false) :=
  queryCrossref_cache_hit scorer title response cache entry h

/-- C10 witness: a cached "error" entry for the key "test paper" is served
for the differently-punctuated title "Test  Paper!" with no live query. -/
theorem c10_cached_entry_never_requeried_witness :
    queryCrossref lowScorer "Test  Paper!" (Except.ok []) cachedErrorMap
      = (CacheEntry.error "cached failure", cachedErrorMap, false) :=
  c10_cached_entry_never_requeried lowScorer "Test  Paper!" (Except.ok []) cachedErrorMap
    (CacheEntry.error "cached failure") (by decide)

/-- C5: two titles with equal normalized forms address the same cache entry:
every cache lookup agrees on them, and when the shared key is cached, the
enrichment query for either title returns that same cached value. -/
theorem c5_normalized_title_keying (t1 t2 : String)
    (h : normalize_title t1 = normalize_title t2) :
    (∀ cache : CacheMap,
      cacheFind cache (normalize_title t1) = cacheFind cache (normalize_title t2))
    ∧ (∀ (scorer1 scorer2 : String → String → ℚ)
        (resp1 resp2 : Except String (List CrossrefItem))
        (cache : CacheMap) (entry : CacheEntry),
        cacheFind cache (normalize_title t1) = some entry →
        (queryCrossref scorer1 t1 resp1 cache).1 = entry
        ∧ (queryCrossref scorer2 t2 resp2 cache).1 = entry) := by
  refine ⟨fun cache => by rw [h], ?_⟩
  intro scorer1 scorer2 resp1 resp2 cache entry hfound
  constructor
  · rw [queryCrossref_cache_hit scorer1 t1 resp1 cache entry hfound]
  · rw [queryCrossref_cache_hit scorer2 t2 resp2 cache entry (by rw [← h]; exact hfound)]

/-- C5 witness: "Hello,  World!" and "hello world" normalize identically and
both lookups return the entry cached under "hello world". -/
theorem c5_normalized_title_keying_witness :
    (queryCrossref lowScorer "Hello,  World!" (Except.ok []) cachedNoMatchMap).1
      = CacheEntry.noMatch (1/2)
    ∧ (queryCrossref boundaryScorer "hello world" (Except.error "x") cachedNoMatchMap).1
      = CacheEntry.noMatch (1/2) :=
  (c5_normalized_title_keying "Hello,  World!" "hello world" (by decide)).2
    lowScorer boundaryScorer (Except.ok []) (Except.error "x") cachedNoMatchMap
    (CacheEntry.noMatch (1/2)) rfl

/-- C4: deduplication over the concatenated per-scope fetch results keeps,
for each identity key, exactly the first occurrence in scope order and
drops every later record with that key; the identity keys of the combined
output are pairwise distinct; and two records sharing a (truthy) cluster id
yield exactly one combined record under that cluster key. -/
theorem c4_dedup_first_occurrence_wins (scopes : List (List ScholarRecord)) :
    (∀ k : String,
      (combineRecords scopes).filter (fun r => record_key r = k)
        = (scopes.flatten.filter (fun r => record_key r = k)).take 1)
    ∧ ((combineRecords scopes).map record_key).Nodup
    ∧ (∀ r1 r2 : ScholarRecord, r1 ∈ scopes.flatten → r2 ∈ scopes.flatten →
        ∀ c : String, c ≠ "" → r1.cluster_id = some c → r2.cluster_id = some c →
        ((combineRecords scopes).filter (fun r => record_key r = "cluster:" ++ c)).length
          = 1) := by
  refine ⟨?_, (dedupeAux_nodup scopes.flatten []).2, ?_⟩
  · intro k
    simpa using dedupeAux_filter k scopes.flatten []
  · intro r1 r2 h1 h2 c hc hc1 hc2
    have hkey : record_key r1 = "cluster:" ++ c := by
      simp [record_key, hc1, hc]
    have hfil := dedupeAux_filter ("cluster:" ++ c) scopes.flatten []
    simp only [List.not_mem_nil, if_false] at hfil
    have hmem : r1 ∈ scopes.flatten.filter (fun r => record_key r = "cluster:" ++ c) :=
      List.mem_filter.mpr ⟨h1, by simp [hkey]⟩
    have hpos : 0 < (scopes.flatten.filter (fun r => record_key r = "cluster:" ++ c)).length :=
      List.length_pos.mpr (List.ne_nil_of_mem hmem)
    rw [combineRecords, dedupeRecords, hfil, List.length_take]
    omega

lemma alignAffiliations_length (affs : List (List String)) (authors : List String) :
    (alignAffiliations affs authors).length = authors.length := by
  unfold alignAffiliations
  by_cases h0 : affs = []
  · simp [h0]
  · simp only [h0, if_false]
    split_ifs with hcond
    · rw [List.length_append, List.length_take, List.length_replicate]
      omega
    · push_neg at hcond
      exact hcond h0

lemma enrichRecords_forall2 (scorer : String → String → ℚ)
    (responses : String → Except String (List CrossrefItem))
    (P : ScholarRecord → EnrichedRecord → Prop)
    (hP : ∀ (cache : CacheMap) (r : ScholarRecord), P r (enrichOne scorer responses cache r).1) :
    ∀ (records : List ScholarRecord) (cache : CacheMap),
      List.Forall₂ P records (enrichRecords scorer responses records cache).1 := by
  intro records
  induction records with
  | nil => intro cache; rw [enrichRecords]; exact List.Forall₂.nil
  | cons r rest ih =>
    intro cache
    rw [enrichRecords]
    exact List.Forall₂.cons (hP cache r) (ih _)

lemma enrichRecords_length (scorer : String → String → ℚ)
    (responses : String → Except String (List CrossrefItem)) :
    ∀ (records : List ScholarRecord) (cache : CacheMap),
      (enrichRecords scorer responses records cache).1.length = records.length := by
  intro records
  induction records with
  | nil => intro cache; rw [enrichRecords]; rfl
  | cons r rest ih =>
    intro cache
    rw [enrichRecords, List.length_cons, ih, List.length_cons]

/-- C4 witness: two concrete records with cluster id "c123" arriving from
two different scopes are combined into exactly one record under the
cluster key. -/
theorem c4_dedup_first_occurrence_wins_witness :
    ((combineRecords [[sampleRecordA], [sampleRecordB]]).filter
        (fun r => record_key r = "cluster:" ++ "c123")).length = 1 :=
  (c4_dedup_first_occurrence_wins [[sampleRecordA], [sampleRecordB]]).2.2
    sampleRecordA sampleRecordB (by decide) (by decide) "c123" (by decide) rfl rfl

/-- C1: for every raw record processed by enrich_records, the final author
list is the Crossref author list when that list is non-empty (provenance
"crossref", the enrichment tag); otherwise it equals the originally
scraped/parsed author list when that is non-empty (provenance "scholar",
or "scholar_truncated" when the record's truncation flag is set); otherwise
it is empty with provenance "unknown". -/
theorem c1_final_author_merge_policy (scorer : String → String → ℚ)
    (responses : String → Except String (List CrossrefItem))
    (cache : CacheMap) (records : List ScholarRecord) :
    List.Forall₂ (fun (r : ScholarRecord) (er : EnrichedRecord) =>
        (er.authors_crossref ≠ [] →
          er.final_authors = er.authors_crossref ∧ er.author_source = "crossref")
        ∧ (er.authors_crossref = [] → r.authors_list ≠ [] →
          er.final_authors = r.authors_list
          ∧ er.author_source
              = (if r.authors_truncated then "scholar_truncated" else "scholar"))
        ∧ (er.authors_crossref = [] → r.authors_list = [] →
          er.final_authors = [] ∧ er.author_source = "unknown"))
      records (enrichRecords scorer responses records cache).1 := by
  refine enrichRecords_forall2 scorer responses _ ?_ records cache
  intro cache' r
  by_cases hca : ((queryCrossref scorer r.title (responses r.title) cache').1).authorsL = [] <;>
    by_cases hal : r.authors_list = [] <;>
      simp [enrichOne, mergeFinalAuthors, hca, hal]

/-- C1 witness: a concrete one-record run in which Crossref returns the
author "John Smith", so the final author list is the Crossref list with
provenance "crossref", instantiating the merge-policy theorem. -/
theorem c1_final_author_merge_policy_witness :
    List.Forall₂ (fun (r : ScholarRecord) (er : EnrichedRecord) =>
        (er.authors_crossref ≠ [] →
          er.final_authors = er.authors_crossref ∧ er.author_source = "crossref")
        ∧ (er.authors_crossref = [] → r.authors_list ≠ [] →
          er.final_authors = r.authors_list
          ∧ er.author_source
              = (if r.authors_truncated then "scholar_truncated" else "scholar"))
        ∧ (er.authors_crossref = [] → r.authors_list = [] →
          er.final_authors = [] ∧ er.author_source = "unknown"))
      [sampleRecordA] (enrichRecords boundaryScorer okResponses [sampleRecordA] emptyCache).1 :=
  c1_final_author_merge_policy boundaryScorer okResponses emptyCache [sampleRecordA]

/-- C9: for every enriched record the per-author affiliation list aligns
positionally with the corresponding author list (same length), both for
the Crossref fields and for the final reconciled fields; and when the
enrichment source returns a non-empty affiliation list of mismatched
length, it is truncated and padded with empty lists to the author-list
length. -/
theorem c9_affiliations_align_with_authors (scorer : String → String → ℚ)
    (responses : String → Except String (List CrossrefItem))
    (cache : CacheMap) (records : List ScholarRecord) :
    List.Forall₂ (fun (_ : ScholarRecord) (er : EnrichedRecord) =>
        er.authors_crossref_affiliations.length = er.authors_crossref.length
        ∧ er.final_author_affiliations.length = er.final_authors.length)
      records (enrichRecords scorer responses records cache).1
    ∧ (∀ (affs : List (List String)) (authors : List String),
        (alignAffiliations affs authors).length = authors.length)
    ∧ (∀ (affs : List (List String)) (authors : List String),
        affs ≠ [] → affs.length ≠ authors.length →
        alignAffiliations affs authors
          = affs.take authors.length
            ++ List.replicate (authors.length - affs.length) ([] : List String)) := by
  refine ⟨?_, alignAffiliations_length, ?_⟩
  · refine enrichRecords_forall2 scorer responses _ ?_ records cache
    intro cache' r
    constructor
    · simp [enrichOne, alignAffiliations_length]
    · by_cases hca : ((queryCrossref scorer r.title (responses r.title) cache').1).authorsL = [] <;>
        by_cases hal : r.authors_list = [] <;>
          simp [enrichOne, mergeFinalAuthors, hca, hal, alignAffiliations_length]
  · intro affs authors h1 h2
    unfold alignAffiliations
    simp [h1, h2]

/-- C9 witness: a mismatched three-entry affiliation list against a single
author is truncated to one entry, instantiating the alignment theorem. -/
theorem c9_affiliations_align_with_authors_witness :
    (alignAffiliations [["a"], ["b"], ["c"]] ["x"]).length = ["x"].length
    ∧ alignAffiliations [["a"], ["b"], ["c"]] ["x"]
        = ([["a"], ["b"], ["c"]].take (["x"].length))
          ++ List.replicate (["x"].length - [["a"], ["b"], ["c"]].length) ([] : List String) :=
  ⟨(c9_affiliations_align_with_authors boundaryScorer okResponses emptyCache []).2.1
      [["a"], ["b"], ["c"]] ["x"],
   (c9_affiliations_align_with_authors boundaryScorer okResponses emptyCache []).2.2
      [["a"], ["b"], ["c"]] ["x"] (by decide) (by decide)⟩

/-- C6: if every record's normalized title is already a key of the cache
loaded at the start of the run, the enrichment pass issues zero live
Crossref queries and leaves the cache unchanged: every lookup is served
from the cache. -/
theorem c6_warm_cache_issues_no_queries (scorer : String → String → ℚ)
    (responses : String → Except String (List CrossrefItem))
    (records : List ScholarRecord) (cache : CacheMap)
    (h : ∀ r ∈ records, (cacheFind cache (normalize_title r.title)).isSome = true) :
    (enrichRecords scorer responses records cache).2.2 = 0
    ∧ (enrichRecords scorer responses records cache).2.1 = cache := by
  induction records with
  | nil => rw [enrichRecords]; exact ⟨rfl, rfl⟩
  | cons r rest ih =>
    have hr := h r (List.mem_cons_self _ _)
    obtain ⟨e, he⟩ := Option.isSome_iff_exists.mp hr
    have hq := queryCrossref_cache_hit scorer r.title (responses r.title) cache e he
    have hrest := ih (fun r' hr' => h r' (List.mem_cons_of_mem _ hr'))
    rw [enrichRecords]
    simp [enrichOne, hq, hrest.1, hrest.2]

/-- C6 witness: a one-record run whose normalized title "test paper" is
already cached (here with an "error" entry) issues zero live queries and
leaves the cache untouched. -/
theorem c6_warm_cache_issues_no_queries_witness :
    (enrichRecords lowScorer okResponses [sampleRecordA] cachedErrorMap).2.2 = 0
    ∧ (enrichRecords lowScorer okResponses [sampleRecordA] cachedErrorMap).2.1
        = cachedErrorMap :=
  c6_warm_cache_issues_no_queries lowScorer okResponses [sampleRecordA] cachedErrorMap
    (by decide)

/-- C7: when the network call of an enrichment query fails for a record,
the failure is recorded in the cache as an entry with status "error" under
the record's normalized title, and the record proceeds unenriched —
crossref_status "error", no DOI, journal, score, year or author list from
Crossref (the year falls back to the scraped year, the final authors to
the scraped authors) — while the enrichment pass still produces exactly
one output record per input record instead of aborting. -/
theorem c7_enrichment_error_recorded_and_run_continues
    (scorer : String → String → ℚ)
    (responses : String → Except String (List CrossrefItem))
    (cache : CacheMap) (r : ScholarRecord) (msg : String)
    (hmiss : cacheFind cache (normalize_title r.title) = none)
    (herr : responses r.title = .error msg) :
    cacheFind (enrichOne scorer responses cache r).2.1 (normalize_title r.title)
      = some (CacheEntry.error msg)
    ∧ (enrichOne scorer responses cache r).1.crossref_status = "error"
    ∧ (enrichOne scorer responses cache r).1.doi = none
    ∧ (enrichOne scorer responses cache r).1.journal = none
    ∧ (enrichOne scorer responses cache r).1.crossref_score = none
    ∧ (enrichOne scorer responses cache r).1.authors_crossref = []
    ∧ (enrichOne scorer responses cache r).1.crossref_year = r.year
    ∧ (enrichOne scorer responses cache r).1.final_authors
        = (if r.authors_list = [] then [] else r.authors_list)
    ∧ (∀ (records : List ScholarRecord) (cache' : CacheMap),
        (enrichRecords scorer responses records cache').1.length = records.length) := by
  have hq : queryCrossref scorer r.title (responses r.title) cache
      = (CacheEntry.error msg,
         cacheInsert cache (normalize_title r.title) (CacheEntry.error msg), true) := by
    rw [herr]
    exact queryCrossref_error_eq scorer r.title msg cache hmiss
  refine ⟨?_, ?_, ?_, ?_, ?_, ?_, ?_, ?_, enrichRecords_length scorer responses⟩
  · simp [enrichOne, hq, cacheFind_cacheInsert_self]
  · simp [enrichOne, hq, CacheEntry.statusStr]
  · simp [enrichOne, hq, CacheEntry.doi?]
  · simp [enrichOne, hq, CacheEntry.journal?]
  · simp [enrichOne, hq, CacheEntry.score?]
  · simp [enrichOne, hq, CacheEntry.authorsL]
  · simp [enrichOne, hq, CacheEntry.year?]
  · by_cases hal : r.authors_list = [] <;>
      simp [enrichOne, hq, mergeFinalAuthors, hal, CacheEntry.authorsL]

/-- C7 witness: a concrete record whose query fails with "boom" on an empty
cache gets an "error" cache entry under "test paper" and proceeds with the
scraped authors. -/
theorem c7_enrichment_error_recorded_and_run_continues_witness :
    cacheFind (enrichOne lowScorer errResponses emptyCache sampleRecordA).2.1
        (normalize_title sampleRecordA.title) = some (CacheEntry.error "boom")
    ∧ (enrichOne lowScorer errResponses emptyCache sampleRecordA).1.crossref_status = "error"
    ∧ (enrichOne lowScorer errResponses emptyCache sampleRecordA).1.doi = none
    ∧ (enrichOne lowScorer errResponses emptyCache sampleRecordA).1.journal = none
    ∧ (enrichOne lowScorer errResponses emptyCache sampleRecordA).1.crossref_score = none
    ∧ (enrichOne lowScorer errResponses emptyCache sampleRecordA).1.authors_crossref = []
    ∧ (enrichOne lowScorer errResponses emptyCache sampleRecordA).1.crossref_year
        = sampleRecordA.year
    ∧ (enrichOne lowScorer errResponses emptyCache sampleRecordA).1.final_authors
        = (if sampleRecordA.authors_list = [] then [] else sampleRecordA.authors_list)
    ∧ (∀ (records : List ScholarRecord) (cache' : CacheMap),
        (enrichRecords lowScorer errResponses records cache').1.length = records.length) :=
  c7_enrichment_error_recorded_and_run_continues lowScorer errResponses emptyCache
    sampleRecordA "boom" rfl rfl

/-- C3: a record given to the self-citation filter is excluded if and only
if one of its consulted author names (the final authors, falling back to
the scraped authors), normalized by lowercasing, punctuation-stripping and
whitespace-collapsing, is literally a member of the fixed denylist of
original-author name variants; a record with no denylisted variant is
retained. The openalex variant of the filter satisfies the same
characterization over its own denylist. -/
theorem c3_self_citation_exact_denylist_match :
    (∀ (records : List EnrichedRecord) (r : EnrichedRecord), r ∈ records →
      (r ∈ filterSelfCitations records
        ↔ ¬ ∃ a ∈ consultedAuthors r, a ≠ "" ∧ normalize_author_name a ∈ ORIGINAL_AUTHORS))
    ∧ (∀ authors : List String,
        shouldExcludeSelfCitation authors = true
          ↔ ∃ a ∈ authors, a ≠ "" ∧ normalize_author_name a ∈ ORIGINAL_AUTHORS_OPENALEX) := by
  constructor
  · intro records r hr
    rw [filterSelfCitations, List.mem_filter]
    simp [selfCitationKeep, hr, List.any_eq_true]
  · intro authors
    simp [shouldExcludeSelfCitation, List.any_eq_true]

/-- C3 witness: the record by "John Smith" is retained while one by
"Matthias Ihme" is filtered alongside it, and the openalex filter excludes
"Peter C. Ma" (case- and punctuation-insensitively). -/
theorem c3_self_citation_exact_denylist_match_witness :
    keptEnriched ∈ filterSelfCitations [excludedEnriched, keptEnriched]
    ∧ shouldExcludeSelfCitation ["Peter C. Ma"] = true :=
  ⟨(c3_self_citation_exact_denylist_match.1 [excludedEnriched, keptEnriched]
      keptEnriched (by decide)).mpr (by decide),
   (c3_self_citation_exact_denylist_match.2 ["Peter C. Ma"]).mpr (by decide)⟩

lemma bestFold_spec (scorer : String → String → ℚ) (norm : String)
    (items : List CrossrefItem) : ∀ acc : Option CrossrefItem × ℚ,
    acc.2 ≤ (items.foldl (bestStep scorer norm) acc).2
    ∧ (∀ x ∈ scoresOf scorer norm items, x ≤ (items.foldl (bestStep scorer norm) acc).2)
    ∧ (items.foldl (bestStep scorer norm) acc = acc
       ∨ ((items.foldl (bestStep scorer norm) acc).2 ∈ scoresOf scorer norm items
          ∧ ∃ it, (items.foldl (bestStep scorer norm) acc).1 = some it)) := by
  induction items with
  | nil =>
    intro acc
    refine ⟨le_refl _, ?_, Or.inl rfl⟩
    intro x hx
    simp [scoresOf] at hx
  | cons item rest ih =>
    intro acc
    rcases htitle : item.title with _ | ⟨t, ts⟩
    · have hstep : bestStep scorer norm acc item = acc := by simp [bestStep, htitle]
      have hsc : scoresOf scorer norm (item :: rest) = scoresOf scorer norm rest := by
        simp [scoresOf, htitle]
      rw [List.foldl_cons, hstep, hsc]
      exact ih acc
    · have hsc : scoresOf scorer norm (item :: rest)
          = scorer (normalize_title t) norm :: scoresOf scorer norm rest := by
        simp [scoresOf, htitle]
      have hstep : bestStep scorer norm acc item
          = if acc.2 < scorer (normalize_title t) norm
            then (some item, scorer (normalize_title t) norm) else acc := by
        simp [bestStep, htitle]
      rw [List.foldl_cons, hstep, hsc]
      by_cases hlt : acc.2 < scorer (normalize_title t) norm
      · rw [if_pos hlt]
        obtain ⟨ih1, ih2, ih3⟩ := ih (some item, scorer (normalize_title t) norm)
        refine ⟨le_trans (le_of_lt hlt) ih1, ?_, ?_⟩
        · intro x hx
          rcases List.mem_cons.mp hx with hx | hx
          · subst hx; exact ih1
          · exact ih2 x hx
        · rcases ih3 with h | ⟨hmem, hsome⟩
          · rw [h]
            exact Or.inr ⟨List.mem_cons_self _ _, ⟨item, rfl⟩⟩
          · exact Or.inr ⟨List.mem_cons_of_mem _ hmem, hsome⟩
      · rw [if_neg hlt]
        obtain ⟨ih1, ih2, ih3⟩ := ih acc
        refine ⟨ih1, ?_, ?_⟩
        · intro x hx
          rcases List.mem_cons.mp hx with hx | hx
          · subst hx; exact le_trans (not_lt.mp hlt) ih1
          · exact ih2 x hx
        · rcases ih3 with h | ⟨hmem, hsome⟩
          · exact Or.inl h
          · exact Or.inr ⟨List.mem_cons_of_mem _ hmem, hsome⟩


/-- C2: on a cache miss with a successful response, the outcome is
"no_match" exactly when every scored candidate (equivalently, the best
score) is below 0.6 — in particular no candidate at all yields "no_match",
a best score of exactly 0.6 is accepted and any best score strictly below
0.6 is rejected; on an "ok" outcome the recorded score is the score of a
scored candidate, is maximal among all scored candidates, and is at least
0.6; the outcome is always one of "no_match"/"ok" and is recorded in the
cache under the normalized title. -/
theorem c2_best_candidate_and_threshold (scorer : String → String → ℚ) (title : String)
    (items : List CrossrefItem) (cache : CacheMap)
    (hmiss : cacheFind cache (normalize_title title) = none) :
    ((queryCrossref scorer title (.ok items) cache).1.statusStr = "no_match"
      ↔ ∀ x ∈ scoresOf scorer (normalize_title title) items, x < 3/5)
    ∧ (∀ s : ℚ,
        (queryCrossref scorer title (.ok items) cache).1.score? = some s →
        (queryCrossref scorer title (.ok items) cache).1.statusStr = "ok" →
        s ∈ scoresOf scorer (normalize_title title) items
        ∧ (∀ x ∈ scoresOf scorer (normalize_title title) items, x ≤ s)
        ∧ 3/5 ≤ s)
    ∧ ((queryCrossref scorer title (.ok items) cache).1.statusStr = "no_match"
      ∨ (queryCrossref scorer title (.ok items) cache).1.statusStr = "ok")
    ∧ cacheFind (queryCrossref scorer title (.ok items) cache).2.1 (normalize_title title)
        = some (queryCrossref scorer title (.ok items) cache).1 := by
  obtain ⟨hb1, hb2, hb3⟩ := bestFold_spec scorer (normalize_title title) items (none, 0)
  rcases hfold : items.foldl (bestStep scorer (normalize_title title)) (none, 0) with ⟨b1, b2⟩
  rw [hfold] at hb1 hb2 hb3
  cases b1 with
  | none =>
    have hq : queryCrossref scorer title (.ok items) cache
        = (CacheEntry.noMatch b2,
           cacheInsert cache (normalize_title title) (CacheEntry.noMatch b2), true) := by
      simp only [queryCrossref, hmiss, hfold]
    have hb2zero : b2 = 0 := by
      rcases hb3 with h | ⟨_, it, hit⟩
      · exact congrArg Prod.snd h
      · exact absurd hit (by simp)
    refine ⟨?_, ?_, ?_, ?_⟩
    · rw [hq]
      simp only [CacheEntry.statusStr, true_iff]
      intro x hx
      have hx0 : x ≤ 0 := hb2zero ▸ hb2 x hx
      have h35 : (0 : ℚ) < 3/5 := by norm_num
      exact lt_of_le_of_lt hx0 h35
    · intro s hscore hok
      rw [hq] at hok
      simp [CacheEntry.statusStr] at hok
    · left
      rw [hq]
      rfl
    · rw [hq]
      exact cacheFind_cacheInsert_self _ _ _
  | some item =>
    by_cases hlt : b2 < 3/5
    · have hq : queryCrossref scorer title (.ok items) cache
          = (CacheEntry.noMatch b2,
             cacheInsert cache (normalize_title title) (CacheEntry.noMatch b2), true) := by
        simp only [queryCrossref, hmiss, hfold]
        rw [if_pos hlt]
      refine ⟨?_, ?_, ?_, ?_⟩
      · rw [hq]
        simp only [CacheEntry.statusStr, true_iff]
        intro x hx
        exact lt_of_le_of_lt (hb2 x hx) hlt
      · intro s hscore hok
        rw [hq] at hok
        simp [CacheEntry.statusStr] at hok
      · left
        rw [hq]
        rfl
      · rw [hq]
        exact cacheFind_cacheInsert_self _ _ _
    · have hq : queryCrossref scorer title (.ok items) cache
          = (okEntry item b2,
             cacheInsert cache (normalize_title title) (okEntry item b2), true) := by
        simp only [queryCrossref, hmiss, hfold]
        rw [if_neg hlt]
      have hmem : b2 ∈ scoresOf scorer (normalize_title title) items := by
        rcases hb3 with h | ⟨hmem, _⟩
        · exact absurd (congrArg Prod.fst h) (by simp)
        · exact hmem
      refine ⟨?_, ?_, ?_, ?_⟩
      · rw [hq]
        simp only [okEntry, CacheEntry.statusStr]
        constructor
        · intro habs
          exact absurd habs (by simp)
        · intro hall
          exact absurd (hall _ hmem) hlt
      · intro s hscore hok
        rw [hq] at hscore
        simp only [okEntry, CacheEntry.score?, Option.some.injEq] at hscore
        subst hscore
        exact ⟨hmem, fun x hx => hb2 x hx, not_lt.mp hlt⟩
      · right
        rw [hq]
        simp [CacheEntry.statusStr, okEntry]
      · rw [hq]
        exact cacheFind_cacheInsert_self _ _ _

/-- C2 witness: with a scorer returning exactly 3/5 against one titled
candidate, the boundary score 0.6 is accepted: the outcome is "ok", not
"no_match". -/
theorem c2_best_candidate_and_threshold_witness :
    (queryCrossref boundaryScorer "Test Paper" (Except.ok [sampleItem]) emptyCache).1.statusStr
      = "ok" := by
  obtain ⟨h1, h2, h3, h4⟩ :=
    c2_best_candidate_and_threshold boundaryScorer "Test Paper" [sampleItem] emptyCache rfl
  rcases h3 with h | h
  · exfalso
    have hall := h1.mp h
    have hmem : (3/5 : ℚ)
        ∈ scoresOf boundaryScorer (normalize_title "Test Paper") [sampleItem] := by
      simp [scoresOf, sampleItem, boundaryScorer]
    exact absurd (hall _ hmem) (lt_irrefl _)
  · exact h
